import Mathlib

/-!
Verification of the 3D page-turning book (src/book/src/main.js).

The development shallowly embeds the two algorithmic parts of the program:

* the per-frame page bending/turning kinematics of `createPage`'s `update`
  method (real-valued formulas, embedded over `ℝ` with `Real.sin`/`Real.cos`);
* the book-cursor state machine (`setPage`, `updateDelayedPage`, `updateUI`,
  `onClick`), embedded as computable functions over `ℤ`.

Machine floats are modelled as real numbers; `Date.now()` timestamps as real
parameters `now`/`turnedAt`.
-/

/-! ## Constants (src/book/src/main.js lines 8-19) -/

def PAGE_SEGMENTS : ℕ := 30

noncomputable def EASING_FACTOR : ℝ := 0.5

noncomputable def EASING_FACTOR_FOLD : ℝ := 0.3

noncomputable def INSIDE_CURVE_STRENGTH : ℝ := 0.18

noncomputable def OUTSIDE_CURVE_STRENGTH : ℝ := 0.05

noncomputable def TURNING_CURVE_STRENGTH : ℝ := 0.09

/-! ## Book content (lines 22-88): only the shape matters for the claims. -/

structure PageData where
  front : String
  back : String
  content : String

def pagesList : List PageData :=
  [ ⟨"cover", "page1", "This is the cover of our amazing book."⟩,
    ⟨"page1", "page2", "Once upon a time in a land far away, there lived a curious explorer who loved to discover new places."⟩,
    ⟨"page2", "page3", "The explorer had a magical map that would reveal hidden treasures and mysterious locations."⟩,
    ⟨"page3", "page4", "One day, while studying the map, a strange symbol appeared that the explorer had never seen before."⟩,
    ⟨"page4", "page5", "The symbol led to an ancient library filled with books containing the knowledge of forgotten civilizations."⟩,
    ⟨"page5", "page6", "In the library, the explorer found a book just like this one, which told stories of other explorers."⟩,
    ⟨"page6", "page7", "Each explorer had discovered something unique that changed the world in some small but significant way."⟩,
    ⟨"page7", "page8", "The book revealed that the greatest treasures were not gold or jewels, but knowledge and understanding."⟩,
    ⟨"page8", "page9", "Inspired by these stories, our explorer decided to share all discoveries with the world."⟩,
    ⟨"page9", "page10", "And so began a new journey of sharing knowledge and inspiring future generations of explorers."⟩,
    ⟨"page10", "page11", "The explorer created schools and libraries where people could learn about the wonders of the world."⟩,
    ⟨"page11", "page12", "Students from all over came to learn, and many became explorers themselves, continuing the cycle."⟩,
    ⟨"page12", "backcover", "And that is how a single discovery can change the world. The End."⟩ ]

/-- `pages.length` of the source, the book size `N`. -/
def numPages : ℕ := pagesList.length

/-! ## Turning envelope (update, lines 408-409)

`let turningTime = Math.min(400, Date.now() - this.turnedAt) / 400;`
`turningTime = Math.sin(turningTime * Math.PI);` -/

noncomputable def turningTime (now turnedAt : ℝ) : ℝ :=
  Real.sin (min 400 (now - turnedAt) / 400 * Real.pi)

/-- The spec's formula for the envelope: `sin(π · clamp((now − turnedAt)/400, 0, 1))`.
Stated from the spec's words, to be compared with `turningTime` from the source. -/
noncomputable def specTurningTime (now turnedAt : ℝ) : ℝ :=
  Real.sin (Real.pi * max 0 (min 1 ((now - turnedAt) / 400)))

/-- C1: for every page (i.e. every timestamp pair with `turnedAt ≤ now`, which the
program guarantees since `turnedAt` is always a past `Date.now()` value or 0), the
turning envelope equals `sin(π · clamp((now − turnedAt)/400, 0, 1))`; it is 0 at
`now = turnedAt`, peaks at 1 at `now = turnedAt + 200`, and is 0 (clamped) for
every `now ≥ turnedAt + 400`. -/
theorem C1_turning_envelope (now turnedAt : ℝ) (h : turnedAt ≤ now) :
    turningTime now turnedAt = specTurningTime now turnedAt
    ∧ turningTime turnedAt turnedAt = 0
    ∧ turningTime (turnedAt + 200) turnedAt = 1
    ∧ (turnedAt + 400 ≤ now → turningTime now turnedAt = 0) := by
  refine ⟨?_, ?_, ?_, ?_⟩
  · unfold turningTime specTurningTime
    have hmin : min 400 (now - turnedAt) / 400 = min 1 ((now - turnedAt) / 400) := by
      rcases le_total (now - turnedAt) 400 with hc | hc
      · rw [min_eq_right hc, min_eq_right ((div_le_one (by norm_num : (0:ℝ) < 400)).mpr hc)]
      · rw [min_eq_left hc, min_eq_left ((le_div_iff₀ (by norm_num : (0:ℝ) < 400)).mpr
          (by linarith))]
        norm_num
    have hmax : max 0 (min 1 ((now - turnedAt) / 400)) = min 1 ((now - turnedAt) / 400) := by
      apply max_eq_right
      exact le_min (by norm_num) (div_nonneg (by linarith) (by norm_num))
    rw [hmin, hmax, mul_comm]
  · unfold turningTime
    simp
  · unfold turningTime
    have harg : min 400 (turnedAt + 200 - turnedAt) / 400 * Real.pi = Real.pi / 2 := by
      have : turnedAt + 200 - turnedAt = (200:ℝ) := by ring
      rw [this, min_eq_right (by norm_num : (200:ℝ) ≤ 400)]
      ring
    rw [harg, Real.sin_pi_div_two]
  · intro h400
    unfold turningTime
    have harg : min 400 (now - turnedAt) / 400 * Real.pi = Real.pi := by
      rw [min_eq_left (by linarith : (400:ℝ) ≤ now - turnedAt)]
      ring
    rw [harg, Real.sin_pi]

/-- C1 witness: concrete instance at `turnedAt = 0`, `now = 400`. -/
theorem C1_turning_envelope_witness : turningTime 400 0 = 0 :=
  (C1_turning_envelope 400 0 (by norm_num)).2.2.2 (by norm_num)

/-! ## Per-bone curve terms (update, lines 416-451)

`const insideCurveIntensity = i < 8 ? Math.sin(i * 0.2 + 0.25) : 0;`
`const outsideCurveIntensity = i >= 8 ? Math.cos(i * 0.3 + 0.09) : 0;`
`const turningIntensity = Math.sin(i * Math.PI * (1 / bones.length)) * turningTime;`
The bone count `n` stands for `bones.length`. -/

noncomputable def insideCurveIntensity (i : ℕ) : ℝ :=
  if i < 8 then Real.sin ((i : ℝ) * 0.2 + 0.25) else 0

noncomputable def outsideCurveIntensity (i : ℕ) : ℝ :=
  if 8 ≤ i then Real.cos ((i : ℝ) * 0.3 + 0.09) else 0

noncomputable def turningIntensity (i n : ℕ) (turning : ℝ) : ℝ :=
  Real.sin ((i : ℝ) * Real.pi * (1 / (n : ℝ))) * turning

/-- Lines 424-427: the Y-rotation target before the `bookClosed` override. -/
noncomputable def rotationAngle (i n : ℕ) (turning targetRotation : ℝ) : ℝ :=
  INSIDE_CURVE_STRENGTH * insideCurveIntensity i * targetRotation
    - OUTSIDE_CURVE_STRENGTH * outsideCurveIntensity i * targetRotation
    + TURNING_CURVE_STRENGTH * turningIntensity i n turning * targetRotation

/-- `THREE.MathUtils.degToRad` -/
noncomputable def degToRad (deg : ℝ) : ℝ := deg * (Real.pi / 180)

/-- Line 429: `THREE.MathUtils.degToRad(Math.sin(targetRotation) * 2)` -/
noncomputable def foldRotationAngle (targetRotation : ℝ) : ℝ :=
  degToRad (Real.sin targetRotation * 2)

/-- Line 446: `i > 8 ? Math.sin(i * Math.PI * (1 / bones.length) - 0.5) * turningTime : 0` -/
noncomputable def foldIntensity (i n : ℕ) (turning : ℝ) : ℝ :=
  if 8 < i then Real.sin ((i : ℝ) * Real.pi * (1 / (n : ℝ)) - 0.5) * turning else 0

/-- Lines 431-444: the Y-rotation target actually eased toward, after the
`bookClosed` override (`rotationAngle = targetRotation` for bone 0, else 0). -/
noncomputable def boneTargetY (i n : ℕ) (turning targetRotation : ℝ)
    (bookClosed : Bool) : ℝ :=
  if bookClosed then (if i = 0 then targetRotation else 0)
  else rotationAngle i n turning targetRotation

/-- Lines 431-451: the X-rotation target actually eased toward,
`foldRotationAngle * foldIntensity`, with `foldRotationAngle` zeroed by the
`bookClosed` override. -/
noncomputable def boneTargetX (i n : ℕ) (turning targetRotation : ℝ)
    (bookClosed : Bool) : ℝ :=
  (if bookClosed then 0 else foldRotationAngle targetRotation) * foldIntensity i n turning

/-- C2: the per-bone Y-rotation target (before the bookClosed override) is
`0.18·insideCurve·targetRotation − 0.05·outsideCurve·targetRotation +
0.09·turningCurve·targetRotation`, with `insideCurve = sin(0.2·i + 0.25)` only
for `i < 8` (else 0) and `outsideCurve = cos(0.3·i + 0.09)` only for `i ≥ 8`
(else 0); bone `i = 8` gets the outside-curve term and not the inside one. -/
theorem C2_rotation_formula (i n : ℕ) (turning targetRotation : ℝ) :
    rotationAngle i n turning targetRotation
      = 0.18 * (if i < 8 then Real.sin ((i : ℝ) * 0.2 + 0.25) else 0) * targetRotation
        - 0.05 * (if 8 ≤ i then Real.cos ((i : ℝ) * 0.3 + 0.09) else 0) * targetRotation
        + 0.09 * (Real.sin ((i : ℝ) * Real.pi * (1 / (n : ℝ))) * turning) * targetRotation
    ∧ insideCurveIntensity 8 = 0
    ∧ outsideCurveIntensity 8 = Real.cos ((8 : ℝ) * 0.3 + 0.09) := by
  refine ⟨rfl, ?_, ?_⟩
  · simp [insideCurveIntensity]
  · simp [outsideCurveIntensity]

/-- C3: on a frame with `bookClosed = true`, bone 0's Y-rotation target is
`targetRotation` and its X-rotation target is 0, and every bone `i ≥ 1` has
both targets exactly 0, whatever the curve inputs `turning`, `targetRotation`
and the bone count are. -/
theorem C3_bookClosed_override (i n : ℕ) (turning targetRotation : ℝ)
    (hi : 1 ≤ i) :
    boneTargetY 0 n turning targetRotation true = targetRotation
    ∧ boneTargetX 0 n turning targetRotation true = 0
    ∧ boneTargetY i n turning targetRotation true = 0
    ∧ boneTargetX i n turning targetRotation true = 0 := by
  have hi0 : i ≠ 0 := by omega
  refine ⟨by simp [boneTargetY], by simp [boneTargetX], ?_, by simp [boneTargetX]⟩
  simp [boneTargetY, hi0]

/-- C3 witness: concrete instance with bone 1, bone count 31, `turning = 0`,
`targetRotation = 1`. -/
theorem C3_bookClosed_override_witness :
    boneTargetY 0 31 0 1 true = 1
    ∧ boneTargetX 0 31 0 1 true = 0
    ∧ boneTargetY 1 31 0 1 true = 0
    ∧ boneTargetX 1 31 0 1 true = 0 :=
  C3_bookClosed_override 1 31 0 1 (by norm_num)

/-! ## Bone chain (createPage lines 317-334, update lines 416-452)

`createPage` creates `PAGE_SEGMENTS + 1` bones (`for (let i = 0; i <= PAGE_SEGMENTS; i++)`),
each starting with zero rotation. A bone's animated state is its (rotation.y,
rotation.x) pair; `update` eases each pair toward its target and never adds or
removes bones. -/

noncomputable def createBones : List (ℝ × ℝ) :=
  List.replicate (PAGE_SEGMENTS + 1) ((0 : ℝ), (0 : ℝ))

/-- Lines 416-452: one `update` pass over the bone chain.
`bone.rotation.y += (targetRotationY - currentRotationY) * EASING_FACTOR * delta;`
`bone.rotation.x += (targetRotationX - currentRotationX) * EASING_FACTOR_FOLD * delta;` -/
noncomputable def updateBones (delta turning targetRotation : ℝ) (bookClosed : Bool)
    (bones : List (ℝ × ℝ)) : List (ℝ × ℝ) :=
  bones.mapIdx (fun i a =>
    (a.1 + (boneTargetY i bones.length turning targetRotation bookClosed - a.1)
        * EASING_FACTOR * delta,
     a.2 + (boneTargetX i bones.length turning targetRotation bookClosed - a.2)
        * EASING_FACTOR_FOLD * delta))

/-- C8: the bone-angle chain has `PAGE_SEGMENTS + 1` entries at creation, a
single `update` pass preserves the length of any chain, and any sequence of
`update` passes applied to a freshly created chain leaves its length at
`PAGE_SEGMENTS + 1`. -/
theorem C8_bone_count (delta turning targetRotation : ℝ) (bookClosed : Bool)
    (bones : List (ℝ × ℝ)) (ops : List (ℝ × ℝ × ℝ × Bool)) :
    createBones.length = PAGE_SEGMENTS + 1
    ∧ (updateBones delta turning targetRotation bookClosed bones).length = bones.length
    ∧ (ops.foldl (fun b o => updateBones o.1 o.2.1 o.2.2.1 o.2.2.2 b)
        createBones).length = PAGE_SEGMENTS + 1 := by
  have hlen : ∀ (d t r : ℝ) (c : Bool) (b : List (ℝ × ℝ)),
      (updateBones d t r c b).length = b.length := by
    intro d t r c b
    simp [updateBones]
  have hfold : ∀ (l : List (ℝ × ℝ × ℝ × Bool)) (b : List (ℝ × ℝ)),
      (l.foldl (fun b o => updateBones o.1 o.2.1 o.2.2.1 o.2.2.2 b) b).length
        = b.length := by
    intro l
    induction l with
    | nil => intro b; rfl
    | cons o l ih =>
      intro b
      rw [List.foldl_cons, ih (updateBones o.1 o.2.1 o.2.2.1 o.2.2.2 b), hlen]
  refine ⟨by simp [createBones], hlen _ _ _ _ _, ?_⟩
  rw [hfold]
  simp [createBones]

/-! ## Book cursor state machine (lines 512-560)

`setPage` / `updateDelayedPage` / `updateUI`, embedded over `ℤ`. `N` stands
for `pages.length`. -/

/-- Line 513: `currentPage = Math.max(0, Math.min(pages.length - 1, page));` -/
def clampPage (N : ℕ) (p : ℤ) : ℤ := max 0 (min ((N : ℤ) - 1) p)

/-- Lines 539-543: `if (currentPage > delayedPage) delayedPage++;
else if (currentPage < delayedPage) delayedPage--;` -/
def stepDelayed (cur del : ℤ) : ℤ :=
  if del < cur then del + 1 else if cur < del then del - 1 else del

/-- Lines 532-552: the full run of the `goToPage` timer loop, fuelled.  Each
list entry is the `delayedPage` value after that step, paired with the delay
computed at the step (`Math.abs(currentPage - delayedPage) > 2 ? 50 : 150`,
evaluated before the step, used to schedule the following step when one
remains). -/
def goToPage : ℕ → ℤ → ℤ → List (ℤ × ℕ)
  | 0, _, _ => []
  | fuel + 1, cur, del =>
    if cur = del then []
    else
      (stepDelayed cur del, if 2 < (cur - del).natAbs then 50 else 150)
        :: goToPage fuel cur (stepDelayed cur del)

/-- The catch-up run to completion from `delayedPage = del` toward
`currentPage = cur`; `|cur - del|` steps suffice. -/
def catchUp (cur del : ℤ) : List (ℤ × ℕ) := goToPage (cur - del).natAbs cur del

/-- Line 557: the page counter text, `` `Page ${currentPage} of ${pages.length - 1}` ``. -/
def updateUIText (N : ℕ) (cur : ℤ) : String :=
  "Page " ++ toString cur ++ " of " ++ toString ((N : ℤ) - 1)

/-- The mutable session state touched by `setPage`: the two cursors, the
pending catch-up timer delay (`animationTimeout`), and the counter text. -/
structure SessionState where
  currentPage : ℤ
  delayedPage : ℤ
  pendingDelay : Option ℕ
  counterText : String
  deriving DecidableEq

/-- Lines 91-92 and the initial `updateUI()`: `currentPage = 0; delayedPage = 0`. -/
def initState (N : ℕ) : SessionState :=
  { currentPage := 0, delayedPage := 0, pendingDelay := none,
    counterText := updateUIText N 0 }

/-- Lines 512-516: `setPage` clamps, then runs `updateDelayedPage`, whose first
`goToPage` invocation executes synchronously (one step plus the scheduling of
the next step, if any), then refreshes the UI text. `clearTimeout` is modelled
by overwriting `pendingDelay`. -/
def setPage (N : ℕ) (s : SessionState) (p : ℤ) : SessionState :=
  let cur := clampPage N p
  if cur = s.delayedPage then
    { currentPage := cur, delayedPage := s.delayedPage, pendingDelay := none,
      counterText := updateUIText N cur }
  else
    let delay := if 2 < (cur - s.delayedPage).natAbs then 50 else 150
    let del2 := stepDelayed cur s.delayedPage
    { currentPage := cur, delayedPage := del2,
      pendingDelay := if cur = del2 then none else some delay,
      counterText := updateUIText N cur }

/-- Line 490: `delayedPage === 0 || delayedPage === pages.length`, the
`bookClosed` argument passed to every page's `update`. -/
def bookClosedFlag (N : ℕ) (del : ℤ) : Bool := del == 0 || del == (N : ℤ)

/-- Lines 468-472: `onClick`'s target page,
`this.lastOpened ? this.index : this.index + 1`. -/
def onClickTarget (index : ℤ) (lastOpened : Bool) : ℤ :=
  if lastOpened then index else index + 1

/-- Lines 577-581: the canvas click handler: if a page is hovered, invoke its
`onClick`, which calls `setPage(onClickTarget ...)`; else do nothing. The
hovered page is represented by its `(index, lastOpened)` data. -/
def handleClick (hovered : Option (ℤ × Bool)) : Option ℤ :=
  match hovered with
  | none => none
  | some h => some (onClickTarget h.1 h.2)

/-- The states `(currentPage, delayedPage)` reachable from start-up: the
initial state (lines 91-92), the `currentPage` assignment of `setPage`
(line 513), and one catch-up step of the `goToPage` loop (lines 533-543,
guarded by `currentPage ≠ delayedPage`). -/
inductive Reachable (N : ℕ) : ℤ × ℤ → Prop
  | init : Reachable N (0, 0)
  | set (p : ℤ) {s : ℤ × ℤ} : Reachable N s → Reachable N (clampPage N p, s.2)
  | step {s : ℤ × ℤ} : Reachable N s → s.1 ≠ s.2 →
      Reachable N (s.1, stepDelayed s.1 s.2)

/-! ## Catch-up lemmas -/

lemma goToPage_self (fuel : ℕ) (cur : ℤ) : goToPage fuel cur cur = [] := by
  cases fuel <;> simp [goToPage]

lemma stepDelayed_natAbs {cur del : ℤ} (_h : cur ≠ del) :
    (cur - stepDelayed cur del).natAbs = (cur - del).natAbs - 1 := by
  unfold stepDelayed
  split_ifs <;> omega

lemma goToPage_chain (fuel : ℕ) :
    ∀ cur del : ℤ, List.Chain' (fun a b => b = a + 1 ∨ b = a - 1)
      (del :: (goToPage fuel cur del).map Prod.fst) := by
  induction fuel with
  | zero => intro cur del; simp [goToPage]
  | succ f ih =>
    intro cur del
    by_cases h : cur = del
    · simp [goToPage, h]
    · rw [goToPage, if_neg h, List.map_cons, List.chain'_cons]
      refine ⟨?_, ih cur (stepDelayed cur del)⟩
      show stepDelayed cur del = del + 1 ∨ stepDelayed cur del = del - 1
      unfold stepDelayed
      rcases lt_trichotomy del cur with h1 | h1 | h1
      · rw [if_pos h1]
        left
        rfl
      · exact absurd h1.symm h
      · rw [if_neg (by omega), if_pos h1]
        right
        rfl

lemma goToPage_last (fuel : ℕ) :
    ∀ cur del : ℤ, (cur - del).natAbs ≤ fuel →
      ((goToPage fuel cur del).map Prod.fst).getLastD del = cur := by
  induction fuel with
  | zero =>
    intro cur del h
    have : cur = del := by omega
    simp [goToPage, this]
  | succ f ih =>
    intro cur del h
    by_cases hc : cur = del
    · simp [goToPage, hc]
    · rw [goToPage, if_neg hc, List.map_cons, List.getLastD_cons]
      exact ih cur (stepDelayed cur del) (by rw [stepDelayed_natAbs hc]; omega)

lemma goToPage_asc (d : ℕ) :
    ∀ (fuel : ℕ) (cur del : ℤ), cur = del + d → d ≤ fuel →
      (goToPage fuel cur del).map Prod.fst
        = (List.range d).map (fun k : ℕ => del + ((k : ℤ) + 1)) := by
  induction d with
  | zero =>
    intro fuel cur del hcd _
    have : cur = del := by omega
    simp [this, goToPage_self]
  | succ n ih =>
    intro fuel cur del hcd hf
    obtain ⟨f, rfl⟩ : ∃ f, fuel = f + 1 := ⟨fuel - 1, by omega⟩
    have hne : cur ≠ del := by omega
    have hstep : stepDelayed cur del = del + 1 := by
      unfold stepDelayed
      rw [if_pos (by omega : del < cur)]
    rw [goToPage, if_neg hne, List.map_cons, hstep,
      ih f cur (del + 1) (by push_cast at hcd ⊢; omega) (by omega),
      List.range_succ_eq_map, List.map_cons, List.map_map]
    dsimp only
    refine congrArg₂ _ (by push_cast; ring) ?_
    refine List.map_congr_left fun k _ => ?_
    simp only [Function.comp_apply]
    push_cast
    ring

lemma goToPage_desc (d : ℕ) :
    ∀ (fuel : ℕ) (cur del : ℤ), cur = del - d → d ≤ fuel →
      (goToPage fuel cur del).map Prod.fst
        = (List.range d).map (fun k : ℕ => del - ((k : ℤ) + 1)) := by
  induction d with
  | zero =>
    intro fuel cur del hcd _
    have : cur = del := by omega
    simp [this, goToPage_self]
  | succ n ih =>
    intro fuel cur del hcd hf
    obtain ⟨f, rfl⟩ : ∃ f, fuel = f + 1 := ⟨fuel - 1, by omega⟩
    have hne : cur ≠ del := by omega
    have hstep : stepDelayed cur del = del - 1 := by
      unfold stepDelayed
      rw [if_neg (by omega : ¬ del < cur), if_pos (by omega : cur < del)]
    rw [goToPage, if_neg hne, List.map_cons, hstep,
      ih f cur (del - 1) (by push_cast at hcd ⊢; omega) (by omega),
      List.range_succ_eq_map, List.map_cons, List.map_map]
    dsimp only
    refine congrArg₂ _ (by push_cast; ring) ?_
    refine List.map_congr_left fun k _ => ?_
    simp only [Function.comp_apply]
    push_cast
    ring

/-- C4: after `setPage(p)` sets `currentPage = clampPage N p`, running the
catch-up to completion ends with `delayedPage = currentPage`; every scheduled
step changes `delayedPage` by exactly ±1, and the visited values are exactly
the integers strictly between the start and the target followed by the target,
in monotonic order (each one exactly once). -/
theorem C4_catchup_converges (N : ℕ) (p del : ℤ) :
    (((catchUp (clampPage N p) del).map Prod.fst).getLastD del = clampPage N p)
    ∧ List.Chain' (fun a b => b = a + 1 ∨ b = a - 1)
        (del :: (catchUp (clampPage N p) del).map Prod.fst)
    ∧ (del ≤ clampPage N p →
        (catchUp (clampPage N p) del).map Prod.fst
          = (List.range (clampPage N p - del).toNat).map (fun k : ℕ => del + ((k : ℤ) + 1)))
    ∧ (clampPage N p ≤ del →
        (catchUp (clampPage N p) del).map Prod.fst
          = (List.range (del - clampPage N p).toNat).map (fun k : ℕ => del - ((k : ℤ) + 1))) := by
  refine ⟨goToPage_last _ _ _ le_rfl, goToPage_chain _ _ _, ?_, ?_⟩
  · intro hle
    exact goToPage_asc _ _ _ _ (by omega) (by omega)
  · intro hle
    exact goToPage_desc _ _ _ _ (by omega) (by omega)

/-- C4 witness: `setPage 5` with `N = 13` from `delayedPage = 0` visits
1, 2, 3, 4, 5. -/
theorem C4_catchup_converges_witness :
    (catchUp (clampPage 13 5) 0).map Prod.fst
      = (List.range (clampPage 13 5 - 0).toNat).map (fun k => 0 + ((k : ℤ) + 1)) :=
  (C4_catchup_converges 13 5 0).2.2.1 (by decide)

lemma catchUp_cons {cur del : ℤ} (h : cur ≠ del) :
    catchUp cur del
      = (stepDelayed cur del, if 2 < (cur - del).natAbs then 50 else 150)
          :: catchUp cur (stepDelayed cur del) := by
  unfold catchUp
  obtain ⟨m, hm⟩ : ∃ m, (cur - del).natAbs = m + 1 :=
    ⟨(cur - del).natAbs - 1, by omega⟩
  have ht : (cur - stepDelayed cur del).natAbs = m := by
    rw [stepDelayed_natAbs h]
    omega
  rw [hm, ht, goToPage, if_neg h, hm]

/-- C5: each catch-up step moves `delayedPage` one unit toward `currentPage`
and records a delay of 50ms when `|currentPage − delayedPage| > 2` (evaluated
before the step) and 150ms otherwise; with `N = 13` pages, `setPage 5` from
the initial state shows "Page 5 of 12" immediately and the catch-up steps
`delayedPage` through 1, 2, 3, 4, 5 with delays 50, 50, 50, 150, 150. -/
theorem C5_catchup_timing :
    (∀ cur del : ℤ, cur ≠ del →
      catchUp cur del
        = (stepDelayed cur del, if 2 < (cur - del).natAbs then 50 else 150)
            :: catchUp cur (stepDelayed cur del))
    ∧ numPages = 13
    ∧ (setPage 13 (initState 13) 5).currentPage = 5
    ∧ (setPage 13 (initState 13) 5).counterText = "Page 5 of 12"
    ∧ catchUp 5 0 = [(1, 50), (2, 50), (3, 50), (4, 150), (5, 150)] := by
  exact ⟨fun cur del h => catchUp_cons h, by decide, by decide, by decide, by decide⟩

/-- C5 witness: the step rule applied at `currentPage = 5`, `delayedPage = 0`. -/
theorem C5_catchup_timing_witness :
    catchUp 5 0
      = (stepDelayed 5 0, if 2 < ((5 : ℤ) - 0).natAbs then 50 else 150)
          :: catchUp 5 (stepDelayed 5 0) :=
  C5_catchup_timing.1 5 0 (by decide)

/-- C6: `setPage` clamps its argument to `[0, N−1]` before assigning
`currentPage`, so from any state the out-of-range calls `setPage (-5)` and
`setPage (N+5)` produce exactly the same resulting state as `setPage 0` and
`setPage (N-1)` respectively. -/
theorem C6_setPage_clamp_idempotent (N : ℕ) (s : SessionState) (hN : 1 ≤ N) :
    setPage N s (-5) = setPage N s 0
    ∧ setPage N s ((N : ℤ) + 5) = setPage N s ((N : ℤ) - 1) := by
  have hcong : ∀ p q : ℤ, clampPage N p = clampPage N q →
      setPage N s p = setPage N s q := by
    intro p q hpq
    unfold setPage
    rw [hpq]
  have hN1 : (0 : ℤ) ≤ (N : ℤ) - 1 := by omega
  refine ⟨hcong _ _ ?_, hcong _ _ ?_⟩
  · unfold clampPage
    rw [min_eq_right (by omega : (-5 : ℤ) ≤ (N : ℤ) - 1),
      min_eq_right hN1, max_eq_left (by omega : (-5 : ℤ) ≤ 0), max_eq_left le_rfl]
  · unfold clampPage
    rw [min_eq_left (by omega : (N : ℤ) - 1 ≤ (N : ℤ) + 5), min_eq_left le_rfl]

/-- C6 witness: concrete instance with `N = 13` from the initial state. -/
theorem C6_setPage_clamp_idempotent_witness :
    setPage 13 (initState 13) (-5) = setPage 13 (initState 13) 0
    ∧ setPage 13 (initState 13) ((13 : ℤ) + 5)
        = setPage 13 (initState 13) ((13 : ℤ) - 1) :=
  C6_setPage_clamp_idempotent 13 (initState 13) (by norm_num)

/-- C7: a click with a hovered page invokes that page's handler, which targets
`setPage index` when the page's `lastOpened` is true and `setPage (index+1)`
when it is false; with no hovered page nothing is invoked; clicking page 2
with `lastOpened = false` targets `setPage 3`. -/
theorem C7_click_handler (idx : ℤ) :
    handleClick (some (idx, true)) = some idx
    ∧ handleClick (some (idx, false)) = some (idx + 1)
    ∧ handleClick none = none
    ∧ handleClick (some (2, false)) = some 3 :=
  ⟨rfl, rfl, rfl, by decide⟩

lemma clampPage_bounds {N : ℕ} (hN : 1 ≤ N) (p : ℤ) :
    0 ≤ clampPage N p ∧ clampPage N p ≤ (N : ℤ) - 1 := by
  unfold clampPage
  refine ⟨le_max_left 0 _, max_le (by omega) (min_le_left _ _)⟩

lemma reachable_bounds {N : ℕ} (hN : 1 ≤ N) {s : ℤ × ℤ} (h : Reachable N s) :
    0 ≤ s.1 ∧ s.1 ≤ (N : ℤ) - 1 ∧ 0 ≤ s.2 ∧ s.2 ≤ (N : ℤ) - 1 := by
  induction h with
  | init =>
    refine ⟨le_refl 0, by omega, le_refl 0, by omega⟩
  | set p hr ih =>
    obtain ⟨hc0, hc1⟩ := clampPage_bounds hN p
    exact ⟨hc0, hc1, ih.2.2.1, ih.2.2.2⟩
  | step hr hne ih =>
    obtain ⟨h1, h2, h3, h4⟩ := ih
    refine ⟨h1, h2, ?_, ?_⟩ <;>
      · unfold stepDelayed
        split_ifs <;> omega

/-- C9: in every reachable state `delayedPage` stays in `[0, N−1]`, so the
`bookClosed` flag `delayedPage == 0 || delayedPage == N` is equivalent to
`delayedPage == 0` and its `N`-branch is never taken. -/
theorem C9_delayed_in_range (N : ℕ) (s : ℤ × ℤ) (hN : 1 ≤ N)
    (h : Reachable N s) :
    0 ≤ s.2 ∧ s.2 ≤ (N : ℤ) - 1
    ∧ (bookClosedFlag N s.2 = true ↔ s.2 = 0) := by
  obtain ⟨-, -, h2, h3⟩ := reachable_bounds hN h
  refine ⟨h2, h3, ?_⟩
  unfold bookClosedFlag
  simp only [Bool.or_eq_true, beq_iff_eq]
  omega

/-- C9 witness: the initial state with the source's `N = 13`. -/
theorem C9_delayed_in_range_witness :
    0 ≤ ((0, 0) : ℤ × ℤ).2 ∧ ((0, 0) : ℤ × ℤ).2 ≤ (13 : ℤ) - 1
    ∧ (bookClosedFlag 13 ((0, 0) : ℤ × ℤ).2 = true ↔ ((0, 0) : ℤ × ℤ).2 = 0) :=
  C9_delayed_in_range 13 (0, 0) (by norm_num) Reachable.init

/-- C10: when `setPage p` is called with `clampPage N p` different from the
current `delayedPage`, the first catch-up step runs synchronously inside
`setPage`: the returned state's `delayedPage` has already moved one unit
toward the clamped target (strictly closer, and different from before). -/
theorem C10_first_step_synchronous (N : ℕ) (s : SessionState) (p : ℤ)
    (h : clampPage N p ≠ s.delayedPage) :
    (setPage N s p).delayedPage = stepDelayed (clampPage N p) s.delayedPage
    ∧ (clampPage N p - (setPage N s p).delayedPage).natAbs
        = (clampPage N p - s.delayedPage).natAbs - 1
    ∧ (setPage N s p).delayedPage ≠ s.delayedPage := by
  have hd : (setPage N s p).delayedPage
      = stepDelayed (clampPage N p) s.delayedPage := by
    unfold setPage
    rw [if_neg h]
  refine ⟨hd, ?_, ?_⟩
  · rw [hd, stepDelayed_natAbs h]
  · rw [hd]
    unfold stepDelayed
    split_ifs <;> omega

/-- C10 witness: `setPage 5` with `N = 13` from the initial state steps
`delayedPage` synchronously. -/
theorem C10_first_step_synchronous_witness :
    (setPage 13 (initState 13) 5).delayedPage
        = stepDelayed (clampPage 13 5) (initState 13).delayedPage
    ∧ (clampPage 13 5 - (setPage 13 (initState 13) 5).delayedPage).natAbs
        = (clampPage 13 5 - (initState 13).delayedPage).natAbs - 1
    ∧ (setPage 13 (initState 13) 5).delayedPage ≠ (initState 13).delayedPage :=
  C10_first_step_synchronous 13 (initState 13) 5 (by decide)
